import Mathlib

set_option autoImplicit false

/-!
Shallow embedding of the fxDns DNS proxy (github.com/hao/fxdns).

The embedding translates the Go sources into executable Lean definitions:

* strings are Lean `String`s manipulated through their character lists,
  so that every operation reduces in the kernel (Go's `strings` package
  functions are re-implemented character-wise; only ASCII case folding is
  relevant for domain names);
* Go's `regexp` library is modelled by a small backtracking matcher
  (`reMatchF`) over the fragment of regular expressions that the glob
  translation in the sources produces (character literals, `\`-escapes,
  `.`, postfix `*`, and the `^...$` anchors the code always adds); any
  construct outside this fragment is treated as a compile failure, which
  is only ever exercised on patterns where the Go library behaves
  identically;
* maps (`map[string]string`, `map[string]bool`, the cache) become
  association lists with replace-on-insert semantics; where Go iterates a
  map in randomized order, the embedding iterates in insertion order and
  the theorems below only use this where the result is order-independent;
* loops with early exit become structural recursions; the three CNAME
  chain walks, which the Go code bounds by nothing, take an explicit fuel
  argument and return `none` when the fuel runs out, so non-termination
  of the source loop shows up as `none` for every fuel;
* time (`time.Time`) is a natural number; `time.Now().After(t)` is the
  strict comparison `now > t`.
-/

namespace FxDns

/-- Lower-case one character, as Go `strings.ToLower` does on the ASCII
letters that make up domain names. -/
def lowerChar (c : Char) : Char := c.toLower

/-- Lower-case a string character-wise (Go `strings.ToLower`). -/
def lowerStr (s : String) : String := String.mk (s.data.map lowerChar)

/-- Remove a single trailing dot, as the Go sources do both with
`domain[:len(domain)-1]` and with `strings.TrimSuffix(domain, ".")`. -/
def stripDot (s : String) : String :=
  match s.data.getLast? with
  | some c => if c = '.' then String.mk s.data.dropLast else s
  | none => s

/-- `normalizeDomain` from the sources: drop one trailing dot, lower-case. -/
def normalizeDomain (domain : String) : String := lowerStr (stripDot domain)

/-- Go `strings.HasPrefix s p`. -/
def strHasPfx (s p : String) : Bool := p.data.isPrefixOf s.data

/-- Go `strings.HasSuffix s p`. -/
def strHasSfx (s p : String) : Bool := p.data.isSuffixOf s.data

/-- Go `strings.Contains s (string of one char c)`. -/
def strContainsChar (s : String) (c : Char) : Bool := s.data.contains c

/-- Go slice expression `s[n:]` on an ASCII string. -/
def strDropN (s : String) (n : Nat) : String := String.mk (s.data.drop n)

/-- Go `strings.Split s "."` on the character list. -/
def splitDotChars : List Char → List (List Char)
  | [] => [[]]
  | c :: rest =>
    if c = '.' then [] :: splitDotChars rest
    else
      match splitDotChars rest with
      | [] => [[c]]
      | s :: ss => (c :: s) :: ss

/-- Go `strings.Split domain "."`. -/
def splitDot (s : String) : List String := (splitDotChars s.data).map String.mk

/-- Go `strings.Join parts "."`. -/
def joinDot : List String → String
  | [] => ""
  | [x] => x
  | x :: xs => x ++ "." ++ joinDot xs

/-- ASCII white space, for Go `strings.TrimSpace`. -/
def isSpaceChar (c : Char) : Bool :=
  c == ' ' || c == '\t' || c == '\n' || c == '\r'

/-- Go `strings.TrimSpace` (ASCII fragment). -/
def trimSpace (s : String) : String :=
  String.mk (((s.data.dropWhile isSpaceChar).reverse.dropWhile isSpaceChar).reverse)

/-- Association list lookup with string keys (Go map read `m[k]`). -/
def lookupStr {α : Type} : List (String × α) → String → Option α
  | [], _ => none
  | (k, v) :: rest, key => if k == key then some v else lookupStr rest key

/-- Regular-expression atom of the fragment produced by glob translation. -/
inductive RAtom where
  | any : RAtom
  | lit : Char → RAtom
  deriving DecidableEq

/-- A regular-expression token: an atom, possibly starred. -/
inductive RTok where
  | once : RAtom → RTok
  | star : RAtom → RTok
  deriving DecidableEq

/-- Characters that carry no special regular-expression meaning; anything
else outside the translated constructs makes `parseToks` fail, modelling a
`regexp.Compile` error. -/
def safeLitChar (c : Char) : Bool :=
  c.isAlphanum || c == ':' || c == '-' || c == '_' || c == '/'

/-- Parse the body of an anchored regular expression into tokens. -/
def parseToks : List Char → Option (List RTok)
  | [] => some []
  | '\\' :: c :: '*' :: rest =>
    (parseToks rest).map (fun ts => RTok.star (RAtom.lit c) :: ts)
  | '\\' :: c :: rest =>
    (parseToks rest).map (fun ts => RTok.once (RAtom.lit c) :: ts)
  | ['\\'] => none
  | '.' :: '*' :: rest =>
    (parseToks rest).map (fun ts => RTok.star RAtom.any :: ts)
  | '.' :: rest =>
    (parseToks rest).map (fun ts => RTok.once RAtom.any :: ts)
  | c :: '*' :: rest =>
    if safeLitChar c then (parseToks rest).map (fun ts => RTok.star (RAtom.lit c) :: ts)
    else none
  | c :: rest =>
    if safeLitChar c then (parseToks rest).map (fun ts => RTok.once (RAtom.lit c) :: ts)
    else none

/-- Compile an anchored pattern `^...$` (the code always anchors). -/
def compilePat (s : String) : Option (List RTok) :=
  match s.data with
  | '^' :: rest =>
    match rest.getLast? with
    | some '$' => parseToks rest.dropLast
    | _ => none
  | _ => none

/-- Does an atom match one character. -/
def atomMatch : RAtom → Char → Bool
  | RAtom.any, _ => true
  | RAtom.lit c, d => c == d

/-- Fuel-indexed full-match for the token list; every recursive call
decreases `ts.length + cs.length`, so `reMatch` below always supplies
enough fuel and the `0`-case is unreachable there. -/
def reMatchF : Nat → List RTok → List Char → Bool
  | 0, _, _ => false
  | _ + 1, [], [] => true
  | _ + 1, [], _ :: _ => false
  | _ + 1, RTok.once _ :: _, [] => false
  | n + 1, RTok.once a :: ts, c :: cs => atomMatch a c && reMatchF n ts cs
  | n + 1, RTok.star _ :: ts, [] => reMatchF n ts []
  | n + 1, RTok.star a :: ts, c :: cs =>
    reMatchF n ts (c :: cs) || (atomMatch a c && reMatchF n (RTok.star a :: ts) cs)

/-- Full match of a character list against a token list. -/
def reMatch (ts : List RTok) (cs : List Char) : Bool :=
  reMatchF (ts.length + cs.length + 1) ts cs

/-- One step of the glob translation: `.` is escaped, `*` becomes `.*`,
`?` becomes `.`.  The Go code performs three sequential
`strings.Replace(..., -1)` calls; since the replacement texts never
contain a character that a later call replaces in a meaning-changing way
(the `.` introduced for `*` and `?` is inserted after the `.`-escaping
pass), their composition equals this single character-wise pass. -/
def globChar (c : Char) : List Char :=
  if c = '.' then ['\\', '.']
  else if c = '*' then ['.', '*']
  else if c = '?' then ['.']
  else [c]

/-- Glob-to-regex translation with both anchors, as in
`DomainMatcher.compileRegex` and both `MatchDomain` functions. -/
def globTranslate (pattern : String) : String :=
  String.mk ('^' :: (pattern.data.map globChar).flatten ++ ['$'])

/-- Go `reg, err := regexp.Compile(pat); err == nil && reg.MatchString(s)`
for the anchored patterns the sources build. -/
def goRegexMatch (pat : String) (s : String) : Bool :=
  match compilePat pat with
  | some ts => reMatch ts s.data
  | none => false

/-- The inner loop of the wildcard branch shared by both `MatchDomain`
functions: rebuild `"*." + strings.Join(parts[i:], ".")` for `1 ≤ i` and
compare with the pattern (the Go loop runs only when `len(parts) ≥ 2`,
which coincides with this `any` being able to succeed). -/
def wildcardParts (pattern domain : String) : Bool :=
  let parts := splitDot domain
  (List.range parts.length).any
    (fun i => decide (1 ≤ i) && (("*." ++ joinDot (parts.drop i)) == pattern))

/-- `MatchDomain` of the `config` package: strips one trailing dot from
the domain (no case folding of either side), then exact match, wildcard
`*.SUFFIX` (suffix test or label-suffix reconstruction), then glob
translation of patterns containing `*` or `?`. -/
def configMatchDomain (pattern domain : String) : Bool :=
  let d := stripDot domain
  if pattern == d then true
  else if strHasPfx pattern "*." &&
      (strHasSfx d (strDropN pattern 1) || wildcardParts pattern d) then true
  else if strContainsChar pattern '*' || strContainsChar pattern '?' then
    goRegexMatch (globTranslate pattern) d
  else false

/-- `MatchDomain` of the `util` package: normalizes the domain, lower-cases
the pattern, and returns `false` early on the wildcard apex
(`domain == suffix[1:]`) before trying the suffix test and the glob
translation. -/
def utilMatchDomain (pattern0 domain0 : String) : Bool :=
  let domain := normalizeDomain domain0
  let pattern := lowerStr pattern0
  if pattern == domain then true
  else if strHasPfx pattern "*." && domain == strDropN pattern 2 then false
  else if strHasPfx pattern "*." && strHasSfx domain (strDropN pattern 1) then true
  else if strContainsChar pattern '*' || strContainsChar pattern '?' then
    goRegexMatch (globTranslate pattern) domain
  else false

/-- `util.DomainMatcher`: pattern list in insertion order, pre-compiled
regex cache, exact-match table. -/
structure DomainMatcher where
  patterns : List String
  regexCache : List (String × List RTok)
  exactMatches : List String
  deriving DecidableEq

/-- `util.NewDomainMatcher`. -/
def NewDomainMatcher : DomainMatcher := ⟨[], [], []⟩

/-- `DomainMatcher.compileRegex`: cache the glob translation when it
compiles, silently keep the matcher unchanged otherwise. -/
def DomainMatcher.compileRegex (m : DomainMatcher) (pattern : String) : DomainMatcher :=
  match compilePat (globTranslate pattern) with
  | some ts => { m with regexCache := (pattern, ts) :: m.regexCache }
  | none => m

/-- `DomainMatcher.AddPattern`: skip duplicates, store the pattern
verbatim, classify it as exact (no `*`, no `?`) or compiled glob. -/
def DomainMatcher.AddPattern (m : DomainMatcher) (pattern : String) : DomainMatcher :=
  if m.patterns.contains pattern then m
  else
    let m1 := { m with patterns := m.patterns ++ [pattern] }
    if !(strContainsChar pattern '*') && !(strContainsChar pattern '?') then
      { m1 with exactMatches := pattern :: m1.exactMatches }
    else
      m1.compileRegex pattern

/-- `DomainMatcher.matchPattern`: exact match, wildcard with early apex
rejection, suffix test, label-suffix reconstruction, then cached regex. -/
def DomainMatcher.matchPattern (m : DomainMatcher) (pattern domain : String) : Bool :=
  if pattern == domain then true
  else if strHasPfx pattern "*." && domain == strDropN pattern 2 then false
  else if strHasPfx pattern "*." &&
      (strHasSfx domain (strDropN pattern 1) || wildcardParts pattern domain) then true
  else if strContainsChar pattern '*' || strContainsChar pattern '?' then
    match lookupStr m.regexCache pattern with
    | some ts => reMatch ts domain.data
    | none => false
  else false

/-- `DomainMatcher.Match`: normalize the queried domain, try the exact
table, then every pattern in insertion order. -/
def DomainMatcher.Match (m : DomainMatcher) (domain : String) : Bool :=
  let d := normalizeDomain domain
  if m.exactMatches.contains d then true
  else m.patterns.any (fun p => m.matchPattern p d)

/-- An IPv4 CIDR prefix: masked base address and mask bit count (the
`net.ParseCIDR` result; all addresses in the claims are IPv4). -/
structure CIDR where
  base : Nat
  maskBits : Nat
  deriving DecidableEq

/-- `(*net.IPNet).Contains` for IPv4. -/
def CIDR.mem (c : CIDR) (ip : Nat) : Bool :=
  ip / 2 ^ (32 - c.maskBits) == c.base / 2 ^ (32 - c.maskBits)

/-- `util.CIDRMatcher`. -/
structure CIDRMatcher where
  cidrs : List CIDR
  deriving DecidableEq

/-- `CIDRMatcher.Contains`: linear scan over the prefixes. -/
def CIDRMatcher.Contains (m : CIDRMatcher) (ip : Nat) : Bool :=
  m.cidrs.any (fun c => c.mem ip)

/-- `config.DomainRule`. -/
structure DomainRule where
  pattern : String
  strategy : String
  ttl : Nat
  stripCNAMEWhenNoRecord : Bool
  noRecordNoFallback : Option Bool
  deriving DecidableEq

/-- `config.UpstreamConfig` (the fields the pipeline reads). -/
structure UpstreamConfig where
  server : String
  fallbackServer : String
  noRecordNoFallback : Bool
  deriving DecidableEq

/-- `config.Config` (the fields the pipeline reads). -/
structure Config where
  upstream : UpstreamConfig
  domains : List DomainRule
  deriving DecidableEq

/-- Strategy constant `config.StrategyFilterNonCDN`. -/
def StrategyFilterNonCDN : String := "filter_non_cdn"

/-- Strategy constant `config.StrategyReturnCDNA`. -/
def StrategyReturnCDNA : String := "return_cdn_a"

/-- Strategy constant `config.StrategyNone`. -/
def StrategyNone : String := "none"

/-- `config.GetDomainStrategy`: first rule whose pattern matches via
`config.MatchDomain`, else `none`. -/
def GetDomainStrategy (cfg : Config) (domain : String) : String :=
  match cfg.domains.find? (fun rule => configMatchDomain rule.pattern domain) with
  | some rule => rule.strategy
  | none => StrategyNone

/-- One entry of a DNS question section (`dns.Question`). -/
structure Question where
  name : String
  qtype : Nat
  qclass : Nat
  deriving DecidableEq

/-- `dns.RR_Header`. -/
structure RRHeader where
  name : String
  rrtype : Nat
  rrclass : Nat
  ttl : Nat
  deriving DecidableEq

/-- The resource-record payloads the server inspects; Go type switches on
the concrete record type, which this constructor choice mirrors.  IPv4
addresses are 32-bit naturals. -/
inductive RRData where
  | a : Nat → RRData
  | aaaa : Nat → RRData
  | cname : String → RRData
  | other : RRData
  deriving DecidableEq

/-- A resource record. -/
structure RR where
  hdr : RRHeader
  rdata : RRData
  deriving DecidableEq

/-- The parts of `dns.Msg` the pipeline reads or writes. -/
structure Msg where
  id : Nat
  response : Bool
  question : List Question
  answer : List RR
  deriving DecidableEq

/-- `dns.TypeA`. -/
def TypeA : Nat := 1

/-- `dns.TypeCNAME`. -/
def TypeCNAME : Nat := 5

/-- `dns.TypeAAAA`. -/
def TypeAAAA : Nat := 28

/-- `dns.ClassINET`. -/
def ClassINET : Nat := 1

/-- `dns.CNAMEChain`: source-to-target links plus the set of all names
(both ends) occurring in CNAME records, in insertion order. -/
structure CNAMEChain where
  links : List (String × String)
  domains : List String
  deriving DecidableEq

/-- `NewCNAMEChain`. -/
def NewCNAMEChain : CNAMEChain := ⟨[], []⟩

/-- Go map assignment `m[s] = t` on an association list. -/
def insertLink : List (String × String) → String → String → List (String × String)
  | [], s, t => [(s, t)]
  | (k, v) :: rest, s, t =>
    if k == s then (k, t) :: rest else (k, v) :: insertLink rest s t

/-- Go set insertion `m[d] = true`, keeping first-insertion order. -/
def addName (l : List String) (d : String) : List String :=
  if l.contains d then l else l ++ [d]

/-- `CNAMEChain.BuildFromResponse`: record every CNAME's normalized
source-target link and both names. -/
def buildChain (resp : Msg) : CNAMEChain :=
  resp.answer.foldl
    (fun c rr =>
      match rr.rdata with
      | RRData.cname t =>
        let source := normalizeDomain rr.hdr.name
        let target := normalizeDomain t
        { links := insertLink c.links source target,
          domains := addName (addName c.domains source) target }
      | _ => c)
    NewCNAMEChain

/-- The unbounded `for` loop inside `CNAMEChain.TraceChain`, with fuel;
`none` means the Go loop has not terminated within `fuel` steps. -/
def traceLoop (links : List (String × String)) : Nat → String → List String → Option (List String)
  | 0, _, _ => none
  | n + 1, current, chain =>
    match lookupStr links current with
    | none => some chain
    | some target => traceLoop links n target (chain ++ [target])

/-- `CNAMEChain.TraceChain`: `some []` models the `nil` returned for a
name outside the chain. -/
def CNAMEChain.TraceChain (c : CNAMEChain) (fuel : Nat) (sourceDomain : String) : Option (List String) :=
  let d := normalizeDomain sourceDomain
  if !(c.domains.contains d) then some []
  else traceLoop c.links fuel d [d]

/-- A cache entry: stored message and expiry instant. -/
structure CacheEntry where
  msg : Msg
  expireAt : Nat
  deriving DecidableEq

/-- The `dns.Cache`: entries keyed by the first question (Go keys by
`r.Question[0].String()`, whose text determines and is determined by the
question triple), a maximum size and a TTL. -/
structure Cache where
  entries : List (Question × CacheEntry)
  maxSize : Nat
  ttl : Nat
  deriving DecidableEq

/-- Association-list lookup with `Question` keys. -/
def lookupQ {α : Type} : List (Question × α) → Question → Option α
  | [], _ => none
  | (k, v) :: rest, key => if k == key then some v else lookupQ rest key

/-- Remove every binding of a key (Go map semantics keep keys unique, so
this deletes at most one). -/
def eraseQ {α : Type} (l : List (Question × α)) (key : Question) : List (Question × α) :=
  l.filter (fun p => !(p.1 == key))

/-- Go map assignment `entries[key] = e`. -/
def insertQ {α : Type} (l : List (Question × α)) (key : Question) (e : α) : List (Question × α) :=
  eraseQ l key ++ [(key, e)]

/-- The server state a request handler reads (the Go `Server` fields the
pipeline uses; the cache is threaded separately because the handler
mutates it). -/
structure Server where
  upstream : String
  config : Config
  cidrMatcher : CIDRMatcher
  domainMatcher : DomainMatcher
  deriving DecidableEq

/-- `checkCache`: `none` on empty question, missing key, or strictly
expired entry (`time.Now().After(expireAt)`); otherwise a copy of the
stored message with the client's transaction id. -/
def checkCache (cache : Cache) (now : Nat) (r : Msg) : Option Msg :=
  match r.question.head? with
  | none => none
  | some q =>
    match lookupQ cache.entries q with
    | none => none
    | some entry =>
      if now > entry.expireAt then none
      else some { entry.msg with id := r.id }

/-- `updateCache`: skip on empty question or nil response; evict one
entry when `len(entries) ≥ maxSize` (Go deletes an arbitrary map key; the
embedding drops the head), then store a copy expiring at `now + ttl`. -/
def updateCache (cache : Cache) (now : Nat) (req : Msg) (resp : Option Msg) : Cache :=
  match req.question.head?, resp with
  | some q, some m =>
    let entries :=
      if cache.entries.length ≥ cache.maxSize then cache.entries.tail
      else cache.entries
    { cache with entries := insertQ entries q ⟨m, now + cache.ttl⟩ }
  | _, _ => cache

/-- `noAorAAAA`: the answer section has no A and no AAAA record (by
header record type, as the Go type switch on `Header().Rrtype`). -/
def noAorAAAA (resp : Msg) : Bool :=
  resp.answer.all (fun rr => !(rr.hdr.rrtype == TypeA) && !(rr.hdr.rrtype == TypeAAAA))

/-- `shouldStripCNAMEWhenNoRecord`: flag of the first rule matching the
lower-cased, dot-stripped domain via `util.MatchDomain`. -/
def shouldStripCNAMEWhenNoRecord (s : Server) (domain : String) : Bool :=
  let d := stripDot (lowerStr domain)
  match s.config.domains.find? (fun rule => utilMatchDomain rule.pattern d) with
  | some rule => rule.stripCNAMEWhenNoRecord
  | none => false

/-- `shouldNoRecordNoFallback`: per-rule override of the first matching
rule when present, else the global upstream flag. -/
def shouldNoRecordNoFallback (s : Server) (domain : String) : Bool :=
  let d := stripDot (lowerStr domain)
  match s.config.domains.find? (fun rule => utilMatchDomain rule.pattern d) with
  | some rule =>
    match rule.noRecordNoFallback with
    | some b => b
    | none => s.config.upstream.noRecordNoFallback
  | none => s.config.upstream.noRecordNoFallback

/-- `effectiveStrategyForNoRecord`: the question name's strategy if it is
`return_cdn_a`; when the name has no strategy, the first chain name that
the matcher accepts and whose strategy is `return_cdn_a` (Go iterates
the chain's name set; the embedding iterates insertion order). -/
def effectiveStrategyForNoRecord (s : Server) (req originalResp : Msg) : String × String :=
  match req.question.head? with
  | none => (StrategyNone, "")
  | some q =>
    let domain := normalizeDomain q.name
    let strategy := GetDomainStrategy s.config domain
    if strategy == StrategyReturnCDNA then (strategy, domain)
    else if strategy == StrategyNone then
      match (buildChain originalResp).domains.find?
          (fun d => s.domainMatcher.Match d &&
            GetDomainStrategy s.config d == StrategyReturnCDNA) with
      | some d => (StrategyReturnCDNA, d)
      | none => (strategy, domain)
    else (strategy, domain)

/-- The unbounded walk inside `stripCNAMEsForDomain`: collect the current
name, stop on a missing link or a self-loop, otherwise continue with the
target; `none` models non-termination within `fuel` steps. -/
def stripWalk (cnameMap : List (String × String)) : Nat → String → List String → Option (List String)
  | 0, _, _ => none
  | n + 1, current, acc =>
    let acc1 := addName acc current
    match lookupStr cnameMap current with
    | none => some acc1
    | some next => if next == current then some acc1 else stripWalk cnameMap n next acc1

/-- The CNAME link map a response induces (first loop of
`filterNonCDNIPs` and of `stripCNAMEsForDomain`). -/
def cnameMapOf (resp : Msg) : List (String × String) :=
  resp.answer.foldl
    (fun m rr =>
      match rr.rdata with
      | RRData.cname t => insertLink m (normalizeDomain rr.hdr.name) (normalizeDomain t)
      | _ => m)
    []

/-- `stripCNAMEsForDomain`: remove every CNAME record whose normalized
owner lies in the strip set collected by `stripWalk` from the target
domain. -/
def stripCNAMEsForDomain (fuel : Nat) (resp : Msg) (domain : String) : Option Msg :=
  let d := normalizeDomain domain
  let cnameMap := cnameMapOf resp
  (stripWalk cnameMap fuel d []).map
    (fun toStrip =>
      { resp with
        answer := resp.answer.filter
          (fun rr =>
            match rr.rdata with
            | RRData.cname _ => !(toStrip.contains (normalizeDomain rr.hdr.name))
            | _ => true) })

/-- One step of the CNAME-target collection in `checkCNAMEForCDNIP`. -/
def targetStep (acc : List String) (rr : RR) : List String :=
  match rr.rdata with
  | RRData.cname t => addName acc (normalizeDomain t)
  | _ => acc

/-- The normalized CNAME targets of a response, in insertion order. -/
def cnameTargetsOf (resp : Msg) : List String :=
  resp.answer.foldl targetStep []

/-- One step of the CDN address collection in `checkCNAMEForCDNIP`. -/
def cdnIpStep (s : Server) (cnameTargets : List String) (acc : List Nat) (rr : RR) : List Nat :=
  match rr.rdata with
  | RRData.a ip =>
    if (cnameTargets.contains (normalizeDomain rr.hdr.name) ||
        s.domainMatcher.Match (normalizeDomain rr.hdr.name)) &&
        s.cidrMatcher.Contains ip then acc ++ [ip]
    else acc
  | _ => acc

/-- `checkCNAMEForCDNIP`: collect the normalized CNAME targets, then the
addresses of A records owned by a chain target or a matcher-accepted name
and lying in a CDN prefix; the Bool is `len(cdnIPs) > 0`. -/
def checkCNAMEForCDNIP (s : Server) (resp : Msg) : Bool × List Nat :=
  let cdnIPs : List Nat :=
    resp.answer.foldl (cdnIpStep s (cnameTargetsOf resp)) []
  (!cdnIPs.isEmpty, cdnIPs)

/-- The unbounded walk inside `filterNonCDNIPs`'s matched-domain
collection: follow links from `current`, adding every target, stopping
only on a missing link; `none` models non-termination within `fuel`. -/
def filterWalk (cnameMap : List (String × String)) : Nat → String → List String → Option (List String)
  | 0, _, _ => none
  | n + 1, current, acc =>
    match lookupStr cnameMap current with
    | none => some acc
    | some target => filterWalk cnameMap n target (addName acc target)

/-- One step of the matched-domain collection in `filterNonCDNIPs`. -/
def collectStep (fuel : Nat) (s : Server) (cnameMap : List (String × String))
    (acc : Option (List String)) (p : String × String) : Option (List String) :=
  match acc with
  | none => none
  | some m =>
    if s.domainMatcher.Match p.1 then filterWalk cnameMap fuel p.1 (addName m p.1)
    else some m

/-- The matched-domain set of `filterNonCDNIPs`: every link source the
matcher accepts, together with everything its chain walk reaches. -/
def collectMatched (fuel : Nat) (s : Server) (cnameMap : List (String × String)) : Option (List String) :=
  cnameMap.foldl (collectStep fuel s cnameMap) (some [])

/-- One step of the first loop of `filterNonCDNIPs`: record the link and
append the CNAME record to the fresh answer section. -/
def cnameStep (acc : List (String × String) × List RR) (rr : RR) : List (String × String) × List RR :=
  match rr.rdata with
  | RRData.cname t =>
    (insertLink acc.1 (normalizeDomain rr.hdr.name) (normalizeDomain t), acc.2 ++ [rr])
  | _ => acc

/-- First loop of `filterNonCDNIPs`: the link map and the CNAME records
in input order. -/
def cnamePhase (resp : Msg) : List (String × String) × List RR :=
  resp.answer.foldl cnameStep ([], [])

/-- Is a record a CNAME record (the type switch `ans.(*dns.CNAME)`). -/
def isCNAME (rr : RR) : Bool :=
  match rr.rdata with
  | RRData.cname _ => true
  | _ => false

/-- Is a record an A record by payload (the type switch `ans.(*dns.A)`). -/
def isA (rr : RR) : Bool :=
  match rr.rdata with
  | RRData.a _ => true
  | _ => false

/-- The retention predicate of `filterNonCDNIPs` for A records: owner in
the matched set or accepted by the matcher, address in a CDN prefix;
false for every non-A record. -/
def keepA (s : Server) (matched : List String) (rr : RR) : Bool :=
  match rr.rdata with
  | RRData.a ip =>
    (matched.contains (normalizeDomain rr.hdr.name) ||
      s.domainMatcher.Match (normalizeDomain rr.hdr.name)) &&
      s.cidrMatcher.Contains ip
  | _ => false

/-- One step of the second loop of `filterNonCDNIPs`: keep an A record
whose owner is matched (directly or through the collected set) and whose
address is in a CDN prefix. -/
def aStep (s : Server) (matched : List String) (acc : List RR) (rr : RR) : List RR :=
  match rr.rdata with
  | RRData.a ip =>
    if (matched.contains (normalizeDomain rr.hdr.name) ||
        s.domainMatcher.Match (normalizeDomain rr.hdr.name)) &&
        s.cidrMatcher.Contains ip then acc ++ [rr]
    else acc
  | _ => acc

/-- `filterNonCDNIPs`: keep every CNAME record, then append each A record
whose owner is in the matched-domain set or directly matcher-accepted and
whose address is in a CDN prefix.  The `cdnIPs` argument is received but,
as in the source, never read. -/
def filterNonCDNIPs (fuel : Nat) (s : Server) (resp : Msg) (cdnIPs : List Nat) : Option Msg :=
  match collectMatched fuel s (cnamePhase resp).1 with
  | none => none
  | some matched =>
    some { resp with answer := resp.answer.foldl (aStep s matched) (cnamePhase resp).2 }

/-- The TTL selection loop of `returnCDNARecords`: the first rule whose
pattern matches the dot-stripped question name via `util.MatchDomain`
supplies its `ttl` when positive; otherwise 60. -/
def cdnTTL (cfg : Config) (domain : String) : Nat :=
  match cfg.domains.find? (fun rule => utilMatchDomain rule.pattern (stripDot domain)) with
  | some rule => if rule.ttl > 0 then rule.ttl else 60
  | none => 60

/-- `returnCDNARecords`: a fresh reply (`SetReply`) to the request; for
non-A questions the answer stays empty; for A questions one A record per
CDN address, owned by the question name with the selected TTL.  `none`
models the index panic on an empty question section. -/
def returnCDNARecords (s : Server) (req : Msg) (cdnIPs : List Nat) : Option Msg :=
  match req.question.head? with
  | none => none
  | some q =>
    let newResp : Msg := { id := req.id, response := true, question := [q], answer := [] }
    if !(q.qtype == TypeA) then some newResp
    else
      some { newResp with
        answer := cdnIPs.map
          (fun ip => ⟨⟨q.name, TypeA, ClassINET, cdnTTL s.config q.name⟩, RRData.a ip⟩) }

/-- The strategy dispatch at the end of `processResponse`. -/
def applyStrategy (fuel : Nat) (s : Server) (req originalResp : Msg)
    (cdnIPs : List Nat) (strategy : String) : Option Msg :=
  if strategy == StrategyFilterNonCDN then filterNonCDNIPs fuel s originalResp cdnIPs
  else if strategy == StrategyReturnCDNA then returnCDNARecords s req cdnIPs
  else some originalResp

/-- `processResponse` (the `ServeDNS` variant): on empty question or
empty CDN list return the response; otherwise look up the question name's
strategy, search the CNAME chain for an overriding `filter_non_cdn` or
`return_cdn_a` strategy when it is `none`, default to filtering when the
search fails, and dispatch. -/
def processResponse (fuel : Nat) (s : Server) (req originalResp : Msg)
    (cdnIPs : List Nat) : Option Msg :=
  match req.question.head? with
  | none => some originalResp
  | some q =>
    if cdnIPs.isEmpty then some originalResp
    else
      let domainForStrategy := normalizeDomain q.name
      let strategy := GetDomainStrategy s.config domainForStrategy
      if strategy == StrategyNone then
        match (buildChain originalResp).domains.find?
            (fun d => s.domainMatcher.Match d &&
              (GetDomainStrategy s.config d == StrategyFilterNonCDN ||
               GetDomainStrategy s.config d == StrategyReturnCDNA)) with
        | some d => applyStrategy fuel s req originalResp cdnIPs (GetDomainStrategy s.config d)
        | none => filterNonCDNIPs fuel s originalResp cdnIPs
      else applyStrategy fuel s req originalResp cdnIPs strategy

/-- What the handler does for the client and to the cache. -/
inductive Outcome where
  | reply : Msg → Outcome
  | servfail : Outcome
  | crash : Outcome
  | diverge : Outcome
  deriving DecidableEq

/-- `ServeDNS`: the request pipeline.  `primary` and `fallbackResp` are
the results the two upstream exchanges would deliver (`none` is a
transport error).  `Outcome.crash` models the index panic of the
cache-miss log statement on an empty question section; `Outcome.diverge`
models a CNAME walk that exhausts its fuel. -/
def serveDNS (s : Server) (cache : Cache) (now : Nat) (r : Msg)
    (primary : Option Msg) (fallbackResp : Option Msg) (fuel : Nat) : Outcome × Cache :=
  match checkCache cache now r with
  | some cachedResp => (Outcome.reply cachedResp, cache)
  | none =>
    match r.question.head? with
    | none => (Outcome.crash, cache)
    | some q0 =>
      match primary with
      | none => (Outcome.servfail, cache)
      | some initialResp =>
        if noAorAAAA initialResp &&
            shouldNoRecordNoFallback s q0.name then
          let eff := effectiveStrategyForNoRecord s r initialResp
          if eff.1 == StrategyReturnCDNA && shouldStripCNAMEWhenNoRecord s eff.2 then
            match stripCNAMEsForDomain fuel initialResp eff.2 with
            | none => (Outcome.diverge, cache)
            | some cleaned => (Outcome.reply cleaned, updateCache cache now r (some cleaned))
          else (Outcome.reply initialResp, updateCache cache now r (some initialResp))
        else
          let check := checkCNAMEForCDNIP s initialResp
          if !check.1 then
            if trimSpace s.config.upstream.fallbackServer == "" then
              (Outcome.reply initialResp, updateCache cache now r (some initialResp))
            else
              match fallbackResp with
              | none => (Outcome.servfail, cache)
              | some fb => (Outcome.reply fb, updateCache cache now r (some fb))
          else
            match processResponse fuel s r initialResp check.2 with
            | none => (Outcome.diverge, cache)
            | some finalResp => (Outcome.reply finalResp, updateCache cache now r (some finalResp))

/-- A sequence of cache stores (request, stored response, instant),
folded through `updateCache`. -/
def storeSeq (c : Cache) : List (Msg × Option Msg × Nat) → Cache
  | [] => c
  | op :: rest => storeSeq (updateCache c op.2.2 op.1 op.2.1) rest

/-- `Reaches links x y`: `y` is reachable from `x` by following zero or
more CNAME links. -/
inductive Reaches (links : List (String × String)) : String → String → Prop
  | refl (x : String) : Reaches links x x
  | step (x y z : String) : Reaches links x y → lookupStr links y = some z → Reaches links x z

/-- Soundness predicate for the matched-domain set of `filterNonCDNIPs`:
the name is reachable from some matcher-accepted link source. -/
def matchedSound (cm : List (String × String)) (s : Server) (x : String) : Prop :=
  ∃ src, src ∈ cm.map Prod.fst ∧ s.domainMatcher.Match src = true ∧ Reaches cm src x

/-! Concrete instances used by the counterexamples and witnesses. -/

/-- A server with one `filter_non_cdn` rule for `a.com` and CDN prefix
`192.168.1.0/24`. -/
def srvAcom : Server :=
  ⟨"u:53", ⟨⟨"u:53", "", false⟩, [⟨"a.com", "filter_non_cdn", 0, false, none⟩]⟩,
   ⟨[⟨0xC0A80100, 24⟩]⟩, NewDomainMatcher.AddPattern "a.com"⟩

/-- A server with no domain rules and CDN prefix `192.168.1.0/24`. -/
def srvNoRules : Server :=
  ⟨"u:53", ⟨⟨"u:53", "", false⟩, []⟩, ⟨[⟨0xC0A80100, 24⟩]⟩, NewDomainMatcher⟩

/-- An A request for `x.com.`. -/
def reqXcom : Msg := ⟨7, false, [⟨"x.com.", 1, 1⟩], []⟩

/-- A primary response resolving `x.com.` through a CNAME to `y.com.`,
whose A record carries the CDN address `192.168.1.5`. -/
def respXcom : Msg :=
  ⟨7, true, [⟨"x.com.", 1, 1⟩],
   [⟨⟨"x.com.", 5, 1, 300⟩, RRData.cname "y.com."⟩,
    ⟨⟨"y.com.", 1, 1, 300⟩, RRData.a 0xC0A80105⟩]⟩

/-- The CNAME record of `respOrder`. -/
def rrCnameBC : RR := ⟨⟨"b.com.", 5, 1, 300⟩, RRData.cname "c.com."⟩

/-- The CDN A record of `respOrder`. -/
def rrAcdn : RR := ⟨⟨"a.com.", 1, 1, 300⟩, RRData.a 0xC0A80101⟩

/-- A response whose A record (owned by the rule-matched `a.com`)
precedes its CNAME record. -/
def respOrder : Msg := ⟨1, true, [⟨"a.com.", 1, 1⟩], [rrAcdn, rrCnameBC]⟩

/-- A server for the no-record scenario: `blocked.example.com` uses
`return_cdn_a`, strips CNAMEs on empty answers and never falls back. -/
def srvBlocked : Server :=
  ⟨"u:53", ⟨⟨"u:53", "9.9.9.9:53", false⟩,
   [⟨"blocked.example.com", "return_cdn_a", 0, true, some true⟩]⟩,
   ⟨[⟨0xC0A80100, 24⟩]⟩, NewDomainMatcher.AddPattern "blocked.example.com"⟩

/-- An A request for `blocked.example.com.`. -/
def reqBlocked : Msg := ⟨9, false, [⟨"blocked.example.com.", 1, 1⟩], []⟩

/-- A primary response carrying only a CNAME to `tracker.net.`. -/
def respBlocked : Msg :=
  ⟨9, true, [⟨"blocked.example.com.", 1, 1⟩],
   [⟨⟨"blocked.example.com.", 5, 1, 300⟩, RRData.cname "tracker.net."⟩]⟩

/-- A response whose CNAME records form the two-cycle `a → b → a`. -/
def respCyc : Msg :=
  ⟨1, true, [⟨"a.", 1, 1⟩],
   [⟨⟨"a.", 5, 1, 60⟩, RRData.cname "b."⟩,
    ⟨⟨"b.", 5, 1, 60⟩, RRData.cname "a."⟩]⟩

/-- A server whose matcher accepts the cycle entry `a`. -/
def srvCyc : Server :=
  ⟨"u:53", ⟨⟨"u:53", "", false⟩, [⟨"a", "filter_non_cdn", 0, false, none⟩]⟩,
   ⟨[⟨0xC0A80100, 24⟩]⟩, NewDomainMatcher.AddPattern "a"⟩

/-- A server with a `return_cdn_a` rule (TTL 30) for
`*.cdn.example.com` and CDN prefix `10.0.0.0/8`. -/
def srvCdnA : Server :=
  ⟨"u:53", ⟨⟨"u:53", "", false⟩, [⟨"*.cdn.example.com", "return_cdn_a", 30, false, none⟩]⟩,
   ⟨[⟨0x0A000000, 8⟩]⟩, NewDomainMatcher.AddPattern "*.cdn.example.com"⟩

/-- An A request for `foo.cdn.example.com.`. -/
def reqCdnA : Msg := ⟨5, false, [⟨"foo.cdn.example.com.", 1, 1⟩], []⟩

/-- An A request for `k.com.`, used for the cache round trip. -/
def reqKcom : Msg := ⟨3, false, [⟨"k.com.", 1, 1⟩], []⟩

/-- A stored response for `k.com.`. -/
def respKcom : Msg :=
  ⟨3, true, [⟨"k.com.", 1, 1⟩], [⟨⟨"k.com.", 1, 1, 300⟩, RRData.a 5⟩]⟩

/-- The cache after storing `respKcom` at instant 0 with TTL 5. -/
def cacheKcom : Cache := updateCache ⟨[], 10, 5⟩ 0 reqKcom (some respKcom)

/-- A configuration with a single `filter_non_cdn` rule for the
lower-case pattern `example.com`. -/
def cfgExample : Config :=
  ⟨⟨"u:53", "", false⟩, [⟨"example.com", "filter_non_cdn", 300, false, none⟩]⟩

/-! Helper lemmas about the cache's association list. -/

theorem lookupQ_eraseQ_self {α : Type} (l : List (Question × α)) (q : Question) :
    lookupQ (eraseQ l q) q = none := by
  induction l with
  | nil => rfl
  | cons p rest ih =>
    rcases p with ⟨k, v⟩
    by_cases h : k == q
    · simpa [eraseQ, List.filter_cons, h] using ih
    · simpa [eraseQ, List.filter_cons, h, lookupQ] using ih

theorem lookupQ_append_right {α : Type} (l1 l2 : List (Question × α)) (q : Question)
    (h : lookupQ l1 q = none) : lookupQ (l1 ++ l2) q = lookupQ l2 q := by
  induction l1 with
  | nil => rfl
  | cons p rest ih =>
    rcases p with ⟨k, v⟩
    by_cases hk : k == q
    · simp [lookupQ, hk] at h
    · simp only [lookupQ, hk, List.cons_append, if_neg] at h ⊢
      exact ih h

theorem lookupQ_insertQ_self {α : Type} (l : List (Question × α)) (q : Question) (e : α) :
    lookupQ (insertQ l q e) q = some e := by
  unfold insertQ
  rw [lookupQ_append_right _ _ _ (lookupQ_eraseQ_self l q)]
  simp [lookupQ]

theorem eraseQ_length_le {α : Type} (l : List (Question × α)) (q : Question) :
    (eraseQ l q).length ≤ l.length :=
  List.length_filter_le _ _

theorem insertQ_length {α : Type} (l : List (Question × α)) (q : Question) (e : α) :
    (insertQ l q e).length = (eraseQ l q).length + 1 := by
  simp [insertQ]

theorem checkCache_empty_question (cache : Cache) (now : Nat) (r : Msg)
    (h : r.question = []) : checkCache cache now r = none := by
  simp [checkCache, h]

theorem updateCache_maxSize (c : Cache) (now : Nat) (req : Msg) (resp : Option Msg) :
    (updateCache c now req resp).maxSize = c.maxSize := by
  unfold updateCache
  cases hq : req.question.head? <;> cases resp <;> simp

theorem updateCache_length_le (c : Cache) (now : Nat) (req : Msg) (resp : Option Msg)
    (hmax : 1 ≤ c.maxSize) (h : c.entries.length ≤ c.maxSize) :
    (updateCache c now req resp).entries.length ≤ c.maxSize := by
  unfold updateCache
  cases hq : req.question.head? with
  | none => cases resp <;> simpa using h
  | some q =>
    cases resp with
    | none => simpa using h
    | some M =>
      simp only
      by_cases hlen : c.entries.length ≥ c.maxSize
      · have hEq : c.entries.length = c.maxSize := le_antisymm h hlen
        rw [if_pos hlen, insertQ_length]
        have h1 := eraseQ_length_le c.entries.tail q
        have h2 : c.entries.tail.length = c.entries.length - 1 := by
          cases c.entries <;> simp
        omega
      · rw [if_neg hlen, insertQ_length]
        have h1 := eraseQ_length_le c.entries q
        omega

theorem storeSeq_length_le (ops : List (Msg × Option Msg × Nat)) :
    ∀ c : Cache, 1 ≤ c.maxSize → c.entries.length ≤ c.maxSize →
      (storeSeq c ops).entries.length ≤ c.maxSize := by
  induction ops with
  | nil => intro c _ h; exact h
  | cons op rest ih =>
    intro c hmax h
    have hstep := updateCache_length_le c op.2.2 op.1 op.2.1 hmax h
    have hms := updateCache_maxSize c op.2.2 op.1 op.2.1
    have := ih (updateCache c op.2.2 op.1 op.2.1) (by rw [hms]; exact hmax) (by rw [hms]; exact hstep)
    rwa [hms] at this

/-! Helper lemmas about the unbounded chain walks on a two-cycle. -/

theorem traceLoop_cycle2 (links : List (String × String)) (x y : String)
    (hx : lookupStr links x = some y) (hy : lookupStr links y = some x) :
    ∀ (n : Nat) (cur : String) (acc : List String),
      cur = x ∨ cur = y → traceLoop links n cur acc = none := by
  intro n
  induction n with
  | zero => intro cur acc _; rfl
  | succ n ih =>
    intro cur acc h
    rcases h with rfl | rfl
    · simp only [traceLoop, hx]
      exact ih y _ (Or.inr rfl)
    · simp only [traceLoop, hy]
      exact ih x _ (Or.inl rfl)

theorem stripWalk_cycle2 (cm : List (String × String)) (x y : String)
    (hx : lookupStr cm x = some y) (hy : lookupStr cm y = some x) (hxy : x ≠ y) :
    ∀ (n : Nat) (cur : String) (acc : List String),
      cur = x ∨ cur = y → stripWalk cm n cur acc = none := by
  intro n
  induction n with
  | zero => intro cur acc _; rfl
  | succ n ih =>
    intro cur acc h
    have hyx : (y == x) = false := beq_eq_false_iff_ne.mpr (Ne.symm hxy)
    have hxyb : (x == y) = false := beq_eq_false_iff_ne.mpr hxy
    rcases h with rfl | rfl
    · simp only [stripWalk, hx, hyx, if_false]
      exact ih y _ (Or.inr rfl)
    · simp only [stripWalk, hy, hxyb, if_false]
      exact ih x _ (Or.inl rfl)

theorem filterWalk_cycle2 (cm : List (String × String)) (x y : String)
    (hx : lookupStr cm x = some y) (hy : lookupStr cm y = some x) :
    ∀ (n : Nat) (cur : String) (acc : List String),
      cur = x ∨ cur = y → filterWalk cm n cur acc = none := by
  intro n
  induction n with
  | zero => intro cur acc _; rfl
  | succ n ih =>
    intro cur acc h
    rcases h with rfl | rfl
    · simp only [filterWalk, hx]
      exact ih y _ (Or.inr rfl)
    · simp only [filterWalk, hy]
      exact ih x _ (Or.inl rfl)

/-! Helper lemmas about domain-name normalization. -/

theorem stripDot_append_dot (d : String) : stripDot (d ++ ".") = d := by
  rcases d with ⟨data⟩
  show stripDot (String.mk (data ++ ['.'])) = String.mk data
  simp [stripDot, List.getLast?_concat, List.dropLast_concat]

theorem GetDomainStrategy_trailing_dot (cfg : Config) (d : String) (hd : stripDot d = d) :
    GetDomainStrategy cfg (d ++ ".") = GetDomainStrategy cfg d := by
  have hp : (fun rule : DomainRule => configMatchDomain rule.pattern (d ++ ".")) =
      fun rule : DomainRule => configMatchDomain rule.pattern d := by
    funext rule
    unfold configMatchDomain
    rw [stripDot_append_dot, hd]
  unfold GetDomainStrategy
  rw [hp]

theorem Match_eq_of_normalize_eq (m : DomainMatcher) (d1 d2 : String)
    (h : normalizeDomain d1 = normalizeDomain d2) : m.Match d1 = m.Match d2 := by
  unfold DomainMatcher.Match
  rw [h]

/-- C4: a response whose CNAME records form the two-cycle `a → b → a`
makes all three chain traversals of the code run forever: `TraceChain`,
the strip-set walk of `stripCNAMEsForDomain`, and the matched-domain walk
inside `filterNonCDNIPs` never terminate, for any amount of fuel.  The
claim (and the spec) says every traversal stops on revisit; the code has
no visited check, so this records a code bug. -/
theorem C4_cycle_traversals_diverge :
    (∀ fuel : Nat, (buildChain respCyc).TraceChain fuel "a" = none) ∧
    (∀ fuel : Nat, stripCNAMEsForDomain fuel respCyc "a" = none) ∧
    (∀ fuel : Nat, filterNonCDNIPs fuel srvCyc respCyc [1] = none) := by
  have hla : lookupStr (buildChain respCyc).links "a" = some "b" := by decide
  have hlb : lookupStr (buildChain respCyc).links "b" = some "a" := by decide
  have hma : lookupStr (cnameMapOf respCyc) "a" = some "b" := by decide
  have hmb : lookupStr (cnameMapOf respCyc) "b" = some "a" := by decide
  have hpa : lookupStr (cnamePhase respCyc).1 "a" = some "b" := by decide
  have hpb : lookupStr (cnamePhase respCyc).1 "b" = some "a" := by decide
  refine ⟨?_, ?_, ?_⟩
  · intro fuel
    have h1 : (buildChain respCyc).TraceChain fuel "a" =
        traceLoop (buildChain respCyc).links fuel "a" ["a"] := rfl
    rw [h1]
    exact traceLoop_cycle2 _ "a" "b" hla hlb fuel "a" _ (Or.inl rfl)
  · intro fuel
    have hn : normalizeDomain "a" = "a" := by decide
    have hwalk : stripWalk (cnameMapOf respCyc) fuel "a" [] = none :=
      stripWalk_cycle2 _ "a" "b" hma hmb (by decide) fuel "a" [] (Or.inl rfl)
    simp only [stripCNAMEsForDomain, hn, hwalk, Option.map_none']
  · intro fuel
    have hmatch : srvCyc.domainMatcher.Match "a" = true := by decide
    have hlist : (cnamePhase respCyc).1 = [("a", "b"), ("b", "a")] := by decide
    have hwalk : filterWalk [("a", "b"), ("b", "a")] fuel "a" (addName [] "a") = none :=
      filterWalk_cycle2 _ "a" "b" (by decide) (by decide) fuel "a" _ (Or.inl rfl)
    have hcol : collectMatched fuel srvCyc (cnamePhase respCyc).1 = none := by
      rw [collectMatched, hlist]
      simp only [List.foldl_cons, List.foldl_nil]
      rw [show collectStep fuel srvCyc [("a", "b"), ("b", "a")] (some []) ("a", "b") =
          filterWalk [("a", "b"), ("b", "a")] fuel "a" (addName [] "a") by
        simp [collectStep, hmatch]]
      rw [hwalk]
      rfl
    simp only [filterNonCDNIPs, hcol]

/-- C5: a request with an empty question section makes the handler panic
(out-of-bounds index in the cache-miss log statement) instead of replying
SERVFAIL; nothing is stored in the cache.  The claim (and the spec) says
the handler replies SERVFAIL, so this records a code bug: every sibling
helper guards `len(req.Question) == 0`, only the log call does not. -/
theorem C5_empty_question_panics (s : Server) (cache : Cache) (now : Nat) (r : Msg)
    (primary fallbackResp : Option Msg) (fuel : Nat) (h : r.question = []) :
    serveDNS s cache now r primary fallbackResp fuel = (Outcome.crash, cache) := by
  have hc : checkCache cache now r = none := checkCache_empty_question _ _ _ h
  simp [serveDNS, hc, h]

/-- Witness for C5 at a concrete empty-question request. -/
theorem C5_empty_question_panics_witness :
    (⟨1, false, [], []⟩ : Msg).question = [] ∧
      serveDNS srvNoRules ⟨[], 100, 60⟩ 0 ⟨1, false, [], []⟩ (some respXcom) none 10 =
        (Outcome.crash, ⟨[], 100, 60⟩) :=
  ⟨rfl, C5_empty_question_panics srvNoRules ⟨[], 100, 60⟩ 0 ⟨1, false, [], []⟩
    (some respXcom) none 10 rfl⟩

/-- C7 (counterexample): the entry for `k.com.` is stored at instant 0
with TTL 5, so its expiry instant is 5; a lookup exactly at instant 5
still returns the message (the code misses only strictly after expiry,
`time.Now().After`), while the claim says a lookup at the expiry instant
is a miss. -/
theorem C7_lookup_at_expiry_hits :
    (lookupQ cacheKcom.entries ⟨"k.com.", 1, 1⟩).map CacheEntry.expireAt = some 5 ∧
    checkCache cacheKcom 5 { reqKcom with id := 42 } = some { respKcom with id := 42 } := by
  constructor
  · decide
  · decide

/-- C7 (amended): storing a message `M` under a question key and looking
the key up no later than the expiry instant `now + ttl` (including
exactly at it) returns `M` with the transaction id rewritten to the
client's; a lookup strictly after the expiry instant is a miss. -/
theorem C7_cache_round_trip (c : Cache) (now now2 : Nat) (req lookupReq M : Msg)
    (q : Question) (hq : req.question.head? = some q)
    (hq2 : lookupReq.question.head? = some q) :
    (now2 ≤ now + c.ttl →
      checkCache (updateCache c now req (some M)) now2 lookupReq =
        some { M with id := lookupReq.id }) ∧
    (now + c.ttl < now2 →
      checkCache (updateCache c now req (some M)) now2 lookupReq = none) := by
  have hlook : lookupQ (updateCache c now req (some M)).entries q =
      some ⟨M, now + c.ttl⟩ := by
    simp [updateCache, hq, lookupQ_insertQ_self]
  constructor
  · intro hle
    have hnot : ¬ now2 > now + c.ttl := Nat.not_lt.mpr hle
    simp [checkCache, hq2, hlook, hnot]
  · intro hgt
    simp [checkCache, hq2, hlook, hgt]

/-- Witness for C7 (amended) on the concrete `k.com.` store. -/
theorem C7_cache_round_trip_witness :
    reqKcom.question.head? = some ⟨"k.com.", 1, 1⟩ ∧
    (4 ≤ 0 + (⟨[], 10, 5⟩ : Cache).ttl) ∧
    checkCache (updateCache ⟨[], 10, 5⟩ 0 reqKcom (some respKcom)) 4
        { reqKcom with id := 42 } = some { respKcom with id := 42 } :=
  ⟨rfl, by decide,
    (C7_cache_round_trip ⟨[], 10, 5⟩ 0 4 reqKcom { reqKcom with id := 42 } respKcom
      ⟨"k.com.", 1, 1⟩ rfl rfl).1 (by decide)⟩

/-- C8 (counterexample): with the configured maximum size 0, a store into
the empty cache leaves one entry — the eviction loop has nothing to
delete and the insertion happens regardless — so the claimed bound
"entry count ≤ configured max, including zero" fails. -/
theorem C8_zero_capacity_violated :
    (updateCache ⟨[], 0, 5⟩ 0 reqKcom (some respKcom)).entries.length = 1 ∧
    ¬ ((updateCache ⟨[], 0, 5⟩ 0 reqKcom (some respKcom)).entries.length ≤
        (⟨[], 0, 5⟩ : Cache).maxSize) := by
  constructor
  · decide
  · decide

/-- C8 (amended): for a configured maximum of at least one, any sequence
of stores keeps the entry count at or below the maximum (a store at
capacity first evicts an entry, then inserts); with maximum 0 the count
can reach 1. -/
theorem C8_size_invariant (c : Cache) (ops : List (Msg × Option Msg × Nat))
    (hmax : 1 ≤ c.maxSize) (hinv : c.entries.length ≤ c.maxSize) :
    (storeSeq c ops).entries.length ≤ c.maxSize :=
  storeSeq_length_le ops c hmax hinv

/-- Witness for C8 (amended): three stores into a two-entry cache. -/
theorem C8_size_invariant_witness :
    (1 ≤ (⟨[], 2, 5⟩ : Cache).maxSize) ∧
    ((⟨[], 2, 5⟩ : Cache).entries.length ≤ (⟨[], 2, 5⟩ : Cache).maxSize) ∧
    (storeSeq ⟨[], 2, 5⟩
      [(reqKcom, some respKcom, 0), (reqXcom, some respXcom, 1),
       (reqBlocked, some respBlocked, 2)]).entries.length ≤ 2 :=
  ⟨by decide, by decide,
    C8_size_invariant ⟨[], 2, 5⟩
      [(reqKcom, some respKcom, 0), (reqXcom, some respXcom, 1),
       (reqBlocked, some respBlocked, 2)] (by decide) (by decide)⟩

/-- C9 (counterexample): `config.GetDomainStrategy` goes through
`config.MatchDomain`, which strips a trailing dot but never lower-cases,
so with the configured rule `example.com` the domains `Example.COM.` and
`example.com` — equal up to case and trailing dot — get different
strategies, refuting the claimed case-insensitivity of rule lookup. -/
theorem C9_rule_lookup_case_sensitive :
    GetDomainStrategy cfgExample "Example.COM." = StrategyNone ∧
    GetDomainStrategy cfgExample "example.com" = StrategyFilterNonCDN ∧
    GetDomainStrategy cfgExample "Example.COM." ≠ GetDomainStrategy cfgExample "example.com" := by
  refine ⟨by decide, by decide, by decide⟩

/-- C9 (amended): `DomainMatcher.Match` factors through
`normalizeDomain`, so two domains that normalize equally (in particular
case variants and trailing-dot variants) match identically;
`config.GetDomainStrategy` is insensitive to a trailing dot (for a
domain without one) but remains case-sensitive; and `AddPattern` stores
patterns verbatim: the upper-case pattern `EXAMPLE.com` never matches
`example.com` (only the standalone `util.MatchDomain` lower-cases its
pattern argument). -/
theorem C9_matching_normalization (m : DomainMatcher) (d1 d2 : String)
    (h : normalizeDomain d1 = normalizeDomain d2) (cfg : Config) (d : String)
    (hd : stripDot d = d) :
    m.Match d1 = m.Match d2 ∧
    GetDomainStrategy cfg (d ++ ".") = GetDomainStrategy cfg d ∧
    (NewDomainMatcher.AddPattern "EXAMPLE.com").Match "example.com" = false := by
  exact ⟨Match_eq_of_normalize_eq m d1 d2 h,
    GetDomainStrategy_trailing_dot cfg d hd, by decide⟩

/-- Witness for C9 (amended) at `Example.COM.` versus `example.com`. -/
theorem C9_matching_normalization_witness :
    normalizeDomain "Example.COM." = normalizeDomain "example.com" ∧
    stripDot "example.com" = "example.com" ∧
    ((NewDomainMatcher.AddPattern "example.com").Match "Example.COM." =
      (NewDomainMatcher.AddPattern "example.com").Match "example.com" ∧
     GetDomainStrategy cfgExample ("example.com" ++ ".") =
      GetDomainStrategy cfgExample "example.com" ∧
     (NewDomainMatcher.AddPattern "EXAMPLE.com").Match "example.com" = false) :=
  ⟨by decide, by decide,
    C9_matching_normalization (NewDomainMatcher.AddPattern "example.com")
      "Example.COM." "example.com" (by decide) cfgExample "example.com" (by decide)⟩

/-- C10 (counterexample): no code path recognises the `regex:` prefix —
the pattern is glob-translated with the prefix as literal text — so the
pattern `regex:.*\.dynamic\.com` does not match `a.dynamic.com`, neither
through `config.MatchDomain` nor through a `DomainMatcher`, while the
claim says the remainder after `regex:` is treated as a regular
expression and therefore matches. -/
theorem C10_regex_prefix_not_special :
    configMatchDomain "regex:.*\\.dynamic\\.com" "a.dynamic.com" = false ∧
    (NewDomainMatcher.AddPattern "regex:.*\\.dynamic\\.com").Match "a.dynamic.com" = false := by
  refine ⟨by decide, by decide⟩

/-- Membership in a Go-style set insertion. -/
theorem mem_addName (l : List String) (d x : String) (h : x ∈ addName l d) :
    x ∈ l ∨ x = d := by
  unfold addName at h
  split at h
  · exact Or.inl h
  · rcases List.mem_append.mp h with h1 | h1
    · exact Or.inl h1
    · exact Or.inr (List.mem_singleton.mp h1)

/-- Prepending one link step to a reachability derivation. -/
theorem Reaches_head (cm : List (String × String)) (x y z : String)
    (hxy : lookupStr cm x = some y) (h : Reaches cm y z) : Reaches cm x z := by
  induction h with
  | refl => exact Reaches.step x x y (Reaches.refl x) hxy
  | step b c _ hbc ih => exact Reaches.step x b c ih hbc

/-- Everything the strip walk collects is the start name, reachable from
it, or was already in the accumulator. -/
theorem stripWalk_sound (cm : List (String × String)) :
    ∀ (n : Nat) (cur : String) (acc out : List String),
      stripWalk cm n cur acc = some out →
      ∀ x ∈ out, x ∈ acc ∨ x = cur ∨ Reaches cm cur x := by
  intro n
  induction n with
  | zero => intro cur acc out h; cases h
  | succ n ih =>
    intro cur acc out h x hx
    rcases hl : lookupStr cm cur with _ | next
    · simp only [stripWalk, hl] at h
      cases h
      rcases mem_addName acc cur x hx with h1 | h1
      · exact Or.inl h1
      · exact Or.inr (Or.inl h1)
    · simp only [stripWalk, hl] at h
      by_cases he : next == cur
      · rw [if_pos he] at h
        cases h
        rcases mem_addName acc cur x hx with h1 | h1
        · exact Or.inl h1
        · exact Or.inr (Or.inl h1)
      · rw [if_neg he] at h
        rcases ih next (addName acc cur) out h x hx with h1 | h1 | h1
        · rcases mem_addName acc cur x h1 with h2 | h2
          · exact Or.inl h2
          · exact Or.inr (Or.inl h2)
        · subst h1
          exact Or.inr (Or.inr (Reaches.step cur cur x (Reaches.refl cur) hl))
        · exact Or.inr (Or.inr (Reaches_head cm cur next x hl h1))

/-- Everything the filter walk collects is reachable from the start name
or was already in the accumulator. -/
theorem filterWalk_sound (cm : List (String × String)) :
    ∀ (n : Nat) (cur : String) (acc out : List String),
      filterWalk cm n cur acc = some out →
      ∀ x ∈ out, x ∈ acc ∨ Reaches cm cur x := by
  intro n
  induction n with
  | zero => intro cur acc out h; cases h
  | succ n ih =>
    intro cur acc out h x hx
    rcases hl : lookupStr cm cur with _ | target
    · simp only [filterWalk, hl] at h
      cases h
      exact Or.inl hx
    · simp only [filterWalk, hl] at h
      rcases ih target (addName acc target) out h x hx with h1 | h1
      · rcases mem_addName acc target x h1 with h2 | h2
        · exact Or.inl h2
        · subst h2
          exact Or.inr (Reaches.step cur cur x (Reaches.refl cur) hl)
      · exact Or.inr (Reaches_head cm cur target x hl h1)

/-- C6: for a request with a question and a non-empty CDN address list,
`returnCDNARecords` builds a reply to the request; a non-A question gets
an empty answer section, an A question gets exactly one A record per CDN
address, owned by the question name, with the TTL of the first matching
rule, defaulting to 60 when that TTL is zero or no rule matches. -/
theorem C6_return_cdn_a (s : Server) (req : Msg) (q : Question) (rest : List Question)
    (cdnIPs : List Nat) (hq : req.question = q :: rest) (hne : cdnIPs ≠ []) :
    (¬ q.qtype = TypeA → returnCDNARecords s req cdnIPs =
      some { id := req.id, response := true, question := [q], answer := [] }) ∧
    (q.qtype = TypeA → returnCDNARecords s req cdnIPs =
      some { id := req.id, response := true, question := [q],
             answer := cdnIPs.map (fun ip =>
               ⟨⟨q.name, TypeA, ClassINET, cdnTTL s.config q.name⟩, RRData.a ip⟩) }) ∧
    (s.config.domains.find? (fun rule => utilMatchDomain rule.pattern (stripDot q.name)) = none →
      cdnTTL s.config q.name = 60) ∧
    (∀ rule0 : DomainRule,
      s.config.domains.find? (fun rule => utilMatchDomain rule.pattern (stripDot q.name)) = some rule0 →
      cdnTTL s.config q.name = if 0 < rule0.ttl then rule0.ttl else 60) := by
  refine ⟨?_, ?_, ?_, ?_⟩
  · intro h
    have hb : (q.qtype == TypeA) = false := beq_eq_false_iff_ne.mpr h
    simp [returnCDNARecords, hq, hb]
  · intro h
    have hb : (q.qtype == TypeA) = true := beq_iff_eq.mpr h
    simp [returnCDNARecords, hq, hb]
  · intro h
    simp [cdnTTL, h]
  · intro rule0 h
    simp [cdnTTL, h]

/-- Witness for C6 at spec scenario 4: rule `*.cdn.example.com`,
`return_cdn_a`, TTL 30; one CDN address `10.1.2.3`. -/
theorem C6_return_cdn_a_witness :
    reqCdnA.question = [⟨"foo.cdn.example.com.", 1, 1⟩] ∧ ([0x0A010203] : List Nat) ≠ [] ∧
    returnCDNARecords srvCdnA reqCdnA [0x0A010203] =
      some { id := 5, response := true, question := [⟨"foo.cdn.example.com.", 1, 1⟩],
             answer := [⟨⟨"foo.cdn.example.com.", 1, 1, 30⟩, RRData.a 0x0A010203⟩] } := by
  refine ⟨rfl, by decide, ?_⟩
  have h := (C6_return_cdn_a srvCdnA reqCdnA ⟨"foo.cdn.example.com.", 1, 1⟩ []
    [0x0A010203] rfl (by decide)).2.1 rfl
  rw [h]
  decide

/-- C3: when the primary response has no A and no AAAA record and the
no-record-no-fallback decision (per-rule override of the first matching
rule, else the global flag) is set, the fallback upstream is never
consulted: the outcome is the same for every fallback response.  If the
effective strategy is `return_cdn_a` and the governing rule enables
`strip_cname_when_no_record`, the reply is the primary response with the
strip-set CNAMEs removed (when that walk terminates), otherwise the
primary response unchanged; either reply is cached.  The strip set holds
only the policy domain and names reached from it via CNAME links. -/
theorem C3_no_record_no_fallback (s : Server) (cache : Cache) (now : Nat) (r : Msg)
    (q : Question) (rest : List Question) (P : Msg) (fuel : Nat)
    (hq : r.question = q :: rest)
    (hmiss : checkCache cache now r = none)
    (hnorec : noAorAAAA P = true)
    (hflag : shouldNoRecordNoFallback s q.name = true) :
    (∀ fb1 fb2 : Option Msg,
      serveDNS s cache now r (some P) fb1 fuel = serveDNS s cache now r (some P) fb2 fuel) ∧
    (∀ cleaned : Msg,
      (effectiveStrategyForNoRecord s r P).1 = StrategyReturnCDNA →
      shouldStripCNAMEWhenNoRecord s (effectiveStrategyForNoRecord s r P).2 = true →
      stripCNAMEsForDomain fuel P (effectiveStrategyForNoRecord s r P).2 = some cleaned →
      ∀ fb : Option Msg, serveDNS s cache now r (some P) fb fuel =
        (Outcome.reply cleaned, updateCache cache now r (some cleaned))) ∧
    (¬ ((effectiveStrategyForNoRecord s r P).1 = StrategyReturnCDNA ∧
        shouldStripCNAMEWhenNoRecord s (effectiveStrategyForNoRecord s r P).2 = true) →
      ∀ fb : Option Msg, serveDNS s cache now r (some P) fb fuel =
        (Outcome.reply P, updateCache cache now r (some P))) ∧
    (∀ (d : String) (toStrip : List String),
      stripWalk (cnameMapOf P) fuel d [] = some toStrip →
      ∀ x ∈ toStrip, x = d ∨ Reaches (cnameMapOf P) d x) := by
  have hred : ∀ fb : Option Msg, serveDNS s cache now r (some P) fb fuel =
      (if (effectiveStrategyForNoRecord s r P).1 == StrategyReturnCDNA &&
          shouldStripCNAMEWhenNoRecord s (effectiveStrategyForNoRecord s r P).2 then
        match stripCNAMEsForDomain fuel P (effectiveStrategyForNoRecord s r P).2 with
        | none => (Outcome.diverge, cache)
        | some cleaned => (Outcome.reply cleaned, updateCache cache now r (some cleaned))
      else (Outcome.reply P, updateCache cache now r (some P))) := by
    intro fb
    simp [serveDNS, hmiss, hq, hnorec, hflag]
  refine ⟨?_, ?_, ?_, ?_⟩
  · intro fb1 fb2
    rw [hred fb1, hred fb2]
  · intro cleaned h1 h2 h3 fb
    have hb : ((effectiveStrategyForNoRecord s r P).1 == StrategyReturnCDNA) = true :=
      beq_iff_eq.mpr h1
    rw [hred fb]
    simp [hb, h2, h3]
  · intro hn fb
    rw [hred fb]
    cases hS : shouldStripCNAMEWhenNoRecord s (effectiveStrategyForNoRecord s r P).2 with
    | false => simp [hS]
    | true =>
      have hA : ¬ (effectiveStrategyForNoRecord s r P).1 = StrategyReturnCDNA :=
        fun hA => hn ⟨hA, hS⟩
      have hb : ((effectiveStrategyForNoRecord s r P).1 == StrategyReturnCDNA) = false :=
        beq_eq_false_iff_ne.mpr hA
      simp [hb]
  · intro d toStrip hwalk x hx
    rcases stripWalk_sound (cnameMapOf P) fuel d [] toStrip hwalk x hx with h1 | h1 | h1
    · cases h1
    · exact Or.inl h1
    · exact Or.inr h1

/-- Witness for C3 at spec scenario 6: `blocked.example.com` with
`return_cdn_a`, strip and no-fallback override; the primary answer is a
lone CNAME, and the reply is that message with the CNAME removed,
whatever the fallback would have said. -/
theorem C3_no_record_no_fallback_witness :
    reqBlocked.question = [⟨"blocked.example.com.", 1, 1⟩] ∧
    checkCache ⟨[], 100, 60⟩ 0 reqBlocked = none ∧
    noAorAAAA respBlocked = true ∧
    shouldNoRecordNoFallback srvBlocked "blocked.example.com." = true ∧
    serveDNS srvBlocked ⟨[], 100, 60⟩ 0 reqBlocked (some respBlocked) (some respXcom) 10 =
      (Outcome.reply { respBlocked with answer := [] },
       updateCache ⟨[], 100, 60⟩ 0 reqBlocked (some { respBlocked with answer := [] })) := by
  refine ⟨rfl, by decide, by decide, by decide, ?_⟩
  exact (C3_no_record_no_fallback srvBlocked ⟨[], 100, 60⟩ 0 reqBlocked
    ⟨"blocked.example.com.", 1, 1⟩ [] respBlocked 10 rfl (by decide) (by decide)
    (by decide)).2.1 { respBlocked with answer := [] } (by decide) (by decide) (by decide)
    (some respXcom)

/-- C10 (amended): glob translation works as stated — `*` becomes `.*`,
`?` becomes `.`, `.` is escaped to a literal, and the expression is
anchored on both sides — but a `regex:` prefix gets no special handling:
the translated pattern demands the literal text `regex:` at the start of
the domain, so `regex:.*\.dynamic\.com` cannot match `a.dynamic.com`. -/
theorem C10_glob_translation :
    globTranslate "regex:.*\\.dynamic\\.com" = "^regex:\\..*\\\\.dynamic\\\\.com$" ∧
    configMatchDomain "a?c.com" "abc.com" = true ∧
    configMatchDomain "a?c.com" "abcxcom" = false ∧
    configMatchDomain "a*b.com" "aXYZb.com" = true ∧
    configMatchDomain "*b.com" "xb.com.extra" = false ∧
    configMatchDomain "b*.com" "xb.com" = false ∧
    utilMatchDomain "regex:.*\\.dynamic\\.com" "a.dynamic.com" = false := by
  refine ⟨by decide, by decide, by decide, by decide, by decide, by decide, by decide⟩

/-! Helper lemmas characterizing the loops of `filterNonCDNIPs`. -/

theorem aStep_eq (s : Server) (matched : List String) (acc : List RR) (rr : RR) :
    aStep s matched acc rr = if keepA s matched rr then acc ++ [rr] else acc := by
  cases hr : rr.rdata <;> simp [aStep, keepA, hr]

theorem aFold_eq (s : Server) (matched : List String) (l : List RR) :
    ∀ acc : List RR, l.foldl (aStep s matched) acc = acc ++ l.filter (keepA s matched) := by
  induction l with
  | nil => intro acc; simp
  | cons rr rest ih =>
    intro acc
    rw [List.foldl_cons, aStep_eq]
    by_cases hk : keepA s matched rr
    · rw [if_pos hk, ih, List.filter_cons_of_pos hk]
      simp
    · rw [if_neg hk, ih, List.filter_cons_of_neg hk]

theorem cnameFold_snd (l : List RR) :
    ∀ (m : List (String × String)) (acc : List RR),
      (l.foldl cnameStep (m, acc)).2 = acc ++ l.filter isCNAME := by
  induction l with
  | nil => intro m acc; simp
  | cons rr rest ih =>
    intro m acc
    rw [List.foldl_cons]
    cases hr : rr.rdata with
    | cname t =>
      have hs : cnameStep (m, acc) rr =
          (insertLink m (normalizeDomain rr.hdr.name) (normalizeDomain t), acc ++ [rr]) := by
        simp [cnameStep, hr]
      rw [hs, ih, List.filter_cons_of_pos (by simp [isCNAME, hr])]
      simp
    | a ip =>
      have hs : cnameStep (m, acc) rr = (m, acc) := by simp [cnameStep, hr]
      rw [hs, ih, List.filter_cons_of_neg (by simp [isCNAME, hr])]
    | aaaa ip =>
      have hs : cnameStep (m, acc) rr = (m, acc) := by simp [cnameStep, hr]
      rw [hs, ih, List.filter_cons_of_neg (by simp [isCNAME, hr])]
    | other =>
      have hs : cnameStep (m, acc) rr = (m, acc) := by simp [cnameStep, hr]
      rw [hs, ih, List.filter_cons_of_neg (by simp [isCNAME, hr])]

theorem cnamePhase_snd (resp : Msg) :
    (cnamePhase resp).2 = resp.answer.filter isCNAME := by
  have := cnameFold_snd resp.answer [] []
  simpa [cnamePhase] using this

theorem collectFold_none (fuel : Nat) (s : Server) (cm : List (String × String)) :
    ∀ l : List (String × String), l.foldl (collectStep fuel s cm) none = none := by
  intro l
  induction l with
  | nil => rfl
  | cons p rest ih => simpa [List.foldl_cons, collectStep] using ih

theorem collectFold_sound (fuel : Nat) (s : Server) (cm : List (String × String)) :
    ∀ (l : List (String × String)) (acc matched : List String),
      (∀ p ∈ l, p ∈ cm) → (∀ x ∈ acc, matchedSound cm s x) →
      l.foldl (collectStep fuel s cm) (some acc) = some matched →
      ∀ x ∈ matched, matchedSound cm s x := by
  intro l
  induction l with
  | nil =>
    intro acc matched _ hacc h
    rw [List.foldl_nil] at h
    cases h
    exact hacc
  | cons p rest ih =>
    intro acc matched hsub hacc h
    rw [List.foldl_cons] at h
    by_cases hm : s.domainMatcher.Match p.1
    · have hstep : collectStep fuel s cm (some acc) p =
          filterWalk cm fuel p.1 (addName acc p.1) := by simp [collectStep, hm]
      rw [hstep] at h
      rcases hw : filterWalk cm fuel p.1 (addName acc p.1) with _ | acc2
      · rw [hw, collectFold_none] at h
        cases h
      · rw [hw] at h
        refine ih acc2 matched (fun p' hp' => hsub p' (List.mem_cons_of_mem _ hp')) ?_ h
        intro x hx
        have hkey : p.1 ∈ cm.map Prod.fst :=
          List.mem_map_of_mem Prod.fst (hsub p (List.mem_cons_self p rest))
        rcases filterWalk_sound cm fuel p.1 (addName acc p.1) acc2 hw x hx with h1 | h1
        · rcases mem_addName acc p.1 x h1 with h2 | h2
          · exact hacc x h2
          · subst h2
            exact ⟨p.1, hkey, hm, Reaches.refl p.1⟩
        · exact ⟨p.1, hkey, hm, h1⟩
    · have hstep : collectStep fuel s cm (some acc) p = some acc := by simp [collectStep, hm]
      rw [hstep] at h
      exact ih acc matched (fun p' hp' => hsub p' (List.mem_cons_of_mem _ hp')) hacc h

theorem collectMatched_sound (fuel : Nat) (s : Server) (cm : List (String × String))
    (matched : List String) (h : collectMatched fuel s cm = some matched) :
    ∀ x ∈ matched, matchedSound cm s x :=
  collectFold_sound fuel s cm cm [] matched (fun _ hp => hp)
    (fun x hx => absurd hx (List.not_mem_nil x)) h

/-- C2 (counterexample): with the rule `a.com` and a response whose
CDN-owned A record precedes its CNAME record, the filter emits the CNAME
first and the A record second — all CNAMEs are emitted before all
retained address records — so the input record order among the retained
records is not preserved, contrary to the claim. -/
theorem C2_order_not_preserved :
    respOrder.answer = [rrAcdn, rrCnameBC] ∧
    filterNonCDNIPs 10 srvAcom respOrder [0xC0A80101] =
      some { respOrder with answer := [rrCnameBC, rrAcdn] } ∧
    ([rrCnameBC, rrAcdn] : List RR) ≠ [rrAcdn, rrCnameBC] := by
  refine ⟨rfl, by decide, by decide⟩

/-- C2 (amended): when the matched-domain walk terminates,
`filterNonCDNIPs` returns the input with its answer replaced by every
CNAME record of the input, in input order, followed by exactly those A
records (in input order) whose address is in the CDN prefix set and whose
owner is matcher-accepted or belongs to the collected matched set; every
name in that set is reachable via CNAME links from some matcher-accepted
link source.  AAAA and other records are dropped, and the two retained
groups are concatenated rather than interleaved as in the input. -/
theorem C2_filter_characterization (fuel : Nat) (s : Server) (resp : Msg)
    (cdnIPs : List Nat) (matched : List String)
    (h : collectMatched fuel s (cnamePhase resp).1 = some matched) :
    filterNonCDNIPs fuel s resp cdnIPs =
      some { resp with answer :=
        resp.answer.filter isCNAME ++ resp.answer.filter (keepA s matched) } ∧
    (∀ x ∈ matched, matchedSound (cnamePhase resp).1 s x) := by
  constructor
  · simp only [filterNonCDNIPs, h]
    rw [aFold_eq, cnamePhase_snd]
  · exact collectMatched_sound fuel s (cnamePhase resp).1 matched h

/-- Witness for C2 (amended) on the order counterexample's inputs, where
the collected matched set is empty. -/
theorem C2_filter_characterization_witness :
    collectMatched 10 srvAcom (cnamePhase respOrder).1 = some [] ∧
    filterNonCDNIPs 10 srvAcom respOrder [0xC0A80101] =
      some { respOrder with answer :=
        respOrder.answer.filter isCNAME ++ respOrder.answer.filter (keepA srvAcom []) } :=
  ⟨by decide,
    (C2_filter_characterization 10 srvAcom respOrder [0xC0A80101] [] (by decide)).1⟩

/-! Helper lemmas for the pass-through claim. -/

theorem processResponse_default_filter (fuel : Nat) (s : Server) (r P : Msg)
    (ips : List Nat) (q : Question) (rest : List Question)
    (hq : r.question = q :: rest) (hne : ips ≠ [])
    (hstrat : GetDomainStrategy s.config (normalizeDomain q.name) = StrategyNone)
    (hchain : ∀ d ∈ (buildChain P).domains, s.domainMatcher.Match d = false) :
    processResponse fuel s r P ips = filterNonCDNIPs fuel s P ips := by
  have hfind : (buildChain P).domains.find?
      (fun d => s.domainMatcher.Match d &&
        (GetDomainStrategy s.config d == StrategyFilterNonCDN ||
         GetDomainStrategy s.config d == StrategyReturnCDNA)) = none := by
    rw [List.find?_eq_none]
    intro d hd
    simp [hchain d hd]
  have hemp : ips.isEmpty = false := by
    cases ips with
    | nil => exact absurd rfl hne
    | cons a l => rfl
  simp [processResponse, hq, hemp, hstrat, hfind]

theorem cdnIpFold_ne_nil (s : Server) (targets : List String) (l : List RR) :
    ∀ acc : List Nat, l.foldl (cdnIpStep s targets) acc ≠ [] →
      acc ≠ [] ∨ ∃ rr ∈ l, ∃ ip : Nat, rr.rdata = RRData.a ip := by
  induction l with
  | nil => intro acc h; exact Or.inl h
  | cons rr rest ih =>
    intro acc h
    rw [List.foldl_cons] at h
    cases hr : rr.rdata with
    | a ip => exact Or.inr ⟨rr, List.mem_cons_self rr rest, ip, hr⟩
    | aaaa ip =>
      have hs : cdnIpStep s targets acc rr = acc := by simp [cdnIpStep, hr]
      rw [hs] at h
      rcases ih acc h with h1 | ⟨rr', hrr', hex⟩
      · exact Or.inl h1
      · exact Or.inr ⟨rr', List.mem_cons_of_mem _ hrr', hex⟩
    | cname t =>
      have hs : cdnIpStep s targets acc rr = acc := by simp [cdnIpStep, hr]
      rw [hs] at h
      rcases ih acc h with h1 | ⟨rr', hrr', hex⟩
      · exact Or.inl h1
      · exact Or.inr ⟨rr', List.mem_cons_of_mem _ hrr', hex⟩
    | other =>
      have hs : cdnIpStep s targets acc rr = acc := by simp [cdnIpStep, hr]
      rw [hs] at h
      rcases ih acc h with h1 | ⟨rr', hrr', hex⟩
      · exact Or.inl h1
      · exact Or.inr ⟨rr', List.mem_cons_of_mem _ hrr', hex⟩

theorem checkCNAME_found_noAorAAAA (s : Server) (P : Msg)
    (hwf : ∀ rr ∈ P.answer, isA rr = true → rr.hdr.rrtype = TypeA)
    (hfound : (checkCNAMEForCDNIP s P).1 = true) : noAorAAAA P = false := by
  have hne : P.answer.foldl (cdnIpStep s (cnameTargetsOf P)) [] ≠ [] := by
    intro hnil
    have h2 : (checkCNAMEForCDNIP s P).1 =
        !(P.answer.foldl (cdnIpStep s (cnameTargetsOf P)) []).isEmpty := rfl
    rw [hfound, hnil] at h2
    simp at h2
  rcases cdnIpFold_ne_nil s (cnameTargetsOf P) P.answer [] hne with h1 | ⟨rr, hrr, ip, hr⟩
  · exact absurd rfl h1
  · have ht : rr.hdr.rrtype = TypeA := hwf rr hrr (by simp [isA, hr])
    unfold noAorAAAA
    rw [List.all_eq_false]
    exact ⟨rr, hrr, by simp [ht]⟩

/-- C1 (counterexample): with no configured rules at all, the question
name has no strategy and the CNAME chain carries no matched name, yet
`processResponse` does not return the response unchanged: the decision
procedure falls through to a default `filter_non_cdn`, which drops the
chain's CDN-owned A record because no name is rule-matched. -/
theorem C1_none_strategy_still_rewrites :
    GetDomainStrategy srvNoRules.config (normalizeDomain "x.com.") = StrategyNone ∧
    (∀ d ∈ (buildChain respXcom).domains, srvNoRules.domainMatcher.Match d = false) ∧
    processResponse 10 srvNoRules reqXcom respXcom [0xC0A80105] =
      some { respXcom with answer := [⟨⟨"x.com.", 5, 1, 300⟩, RRData.cname "y.com."⟩] } ∧
    processResponse 10 srvNoRules reqXcom respXcom [0xC0A80105] ≠ some respXcom := by
  refine ⟨by decide, by decide, by decide, by decide⟩

/-- C1 (amended): when no rule matches the normalised question name and
no name in the primary response's CNAME chain is matcher-accepted, the
pipeline emits the primary response unchanged (and caches it) exactly
when `checkCNAMEForCDNIP` detects no CDN address and no fallback is
configured; when a CDN address is detected (through a CNAME target that
owns a CDN-prefixed A record), `processResponse` runs with the strategy
still `none` and applies `filter_non_cdn` by default instead of returning
the response unchanged.  Record payloads are assumed consistent with
their header types, as the DNS library guarantees for parsed messages. -/
theorem C1_passthrough_only_without_cdn (s : Server) (cache : Cache) (now : Nat)
    (r : Msg) (q : Question) (rest : List Question) (P : Msg) (fuel : Nat)
    (hq : r.question = q :: rest)
    (hmiss : checkCache cache now r = none)
    (hstrat : GetDomainStrategy s.config (normalizeDomain q.name) = StrategyNone)
    (hchain : ∀ d ∈ (buildChain P).domains, s.domainMatcher.Match d = false)
    (hfb : trimSpace s.config.upstream.fallbackServer = "")
    (hwf : ∀ rr ∈ P.answer, isA rr = true → rr.hdr.rrtype = TypeA) :
    ((checkCNAMEForCDNIP s P).1 = false →
      ∀ fb : Option Msg, serveDNS s cache now r (some P) fb fuel =
        (Outcome.reply P, updateCache cache now r (some P))) ∧
    ((checkCNAMEForCDNIP s P).1 = true →
      ∀ fb : Option Msg, serveDNS s cache now r (some P) fb fuel =
        (match filterNonCDNIPs fuel s P (checkCNAMEForCDNIP s P).2 with
         | none => (Outcome.diverge, cache)
         | some f => (Outcome.reply f, updateCache cache now r (some f)))) := by
  have hfindA : (buildChain P).domains.find?
      (fun d => s.domainMatcher.Match d &&
        (GetDomainStrategy s.config d == StrategyReturnCDNA)) = none := by
    rw [List.find?_eq_none]
    intro d hd
    simp [hchain d hd]
  have heff : effectiveStrategyForNoRecord s r P = (StrategyNone, normalizeDomain q.name) := by
    have h1 : (StrategyNone == StrategyReturnCDNA) = false := by decide
    have h2 : (StrategyNone == StrategyNone) = true := by decide
    simp [effectiveStrategyForNoRecord, hq, hstrat, h1, h2, hfindA]
  constructor
  · intro hnf fb
    by_cases hb : (noAorAAAA P && shouldNoRecordNoFallback s q.name) = true
    · have h1 : ((effectiveStrategyForNoRecord s r P).1 == StrategyReturnCDNA) = false := by
        rw [heff]
        exact (by decide : (StrategyNone == StrategyReturnCDNA) = false)
      simp [serveDNS, hmiss, hq, hb, h1]
    · have hb' : (noAorAAAA P && shouldNoRecordNoFallback s q.name) = false :=
        Bool.eq_false_iff.mpr hb
      simp [serveDNS, hmiss, hq, hb', hnf, hfb]
  · intro hf fb
    have hno : noAorAAAA P = false := checkCNAME_found_noAorAAAA s P hwf hf
    have hne : (checkCNAMEForCDNIP s P).2 ≠ [] := by
      intro hnil
      have h2 : (checkCNAMEForCDNIP s P).1 = !(checkCNAMEForCDNIP s P).2.isEmpty := rfl
      rw [hf, hnil] at h2
      simp at h2
    have hproc : processResponse fuel s r P (checkCNAMEForCDNIP s P).2 =
        filterNonCDNIPs fuel s P (checkCNAMEForCDNIP s P).2 :=
      processResponse_default_filter fuel s r P _ q rest hq hne hstrat hchain
    simp [serveDNS, hmiss, hq, hno, hf, hproc]

/-- Witness for C1 (amended): no rules configured, the primary response
resolves `x.com.` through `y.com.` to a CDN address, no fallback; the
pipeline replies with the default-filtered response (the A record
dropped), not with the primary response. -/
theorem C1_passthrough_only_without_cdn_witness :
    (checkCNAMEForCDNIP srvNoRules respXcom).1 = true ∧
    serveDNS srvNoRules ⟨[], 100, 60⟩ 0 reqXcom (some respXcom) (some respBlocked) 10 =
      (Outcome.reply { respXcom with answer := [⟨⟨"x.com.", 5, 1, 300⟩, RRData.cname "y.com."⟩] },
       updateCache ⟨[], 100, 60⟩ 0 reqXcom
         (some { respXcom with answer := [⟨⟨"x.com.", 5, 1, 300⟩, RRData.cname "y.com."⟩] })) := by
  refine ⟨by decide, ?_⟩
  have h := (C1_passthrough_only_without_cdn srvNoRules ⟨[], 100, 60⟩ 0 reqXcom
    ⟨"x.com.", 1, 1⟩ [] respXcom 10 rfl (by decide) (by decide) (by decide) (by decide)
    (by decide)).2 (by decide) (some respBlocked)
  rw [h]
  decide

end FxDns
